import Mathlib

/-
  Verification of the expression-construction and constant-folding layer of a
  tensor-program IR (source: src/src/lang/ir_operator.cc).

  The embedding mirrors the C++ source: the `Ty` structure is the
  {kind, bit-width, lane-count} type descriptor, `Expr` is the IR node DAG,
  `IntImm` values live in int64 (modelled as `Int` with explicit wraparound at
  2^64 where the code performs arithmetic), `UIntImm` values in uint64
  (`Nat` reduced mod 2^64), and `FloatImm` doubles are modelled as exact
  rationals (the claims checked here only exercise exactly representable
  values).  Fatal aborts (LOG(FATAL) / CHECK failures) become `Except.error`
  with the diagnostic's taxonomy entry.
-/

namespace TvmIr

inductive TypeCode where
  | int
  | uint
  | float
  | handle
deriving DecidableEq, Repr

structure Ty where
  code : TypeCode
  bits : Nat
  lanes : Nat
deriving DecidableEq, Repr

def Ty.is_int (t : Ty) : Bool := t.code == TypeCode.int

def Ty.is_uint (t : Ty) : Bool := t.code == TypeCode.uint

def Ty.is_float (t : Ty) : Bool := t.code == TypeCode.float

def Ty.is_bool (t : Ty) : Bool := t.code == TypeCode.uint && t.bits == 1

def Ty.element_of (t : Ty) : Ty := { t with lanes := 1 }

def mkInt (bits lanes : Nat) : Ty := ⟨TypeCode.int, bits, lanes⟩

def mkUInt (bits lanes : Nat) : Ty := ⟨TypeCode.uint, bits, lanes⟩

def mkFloat (bits lanes : Nat) : Ty := ⟨TypeCode.float, bits, lanes⟩

/-- `IsIndexType` from the source: scalar signed int of 32 or 64 bits. -/
def IsIndexType (t : Ty) : Bool :=
  t.is_int && t.lanes == 1 && (t.bits == 32 || t.bits == 64)

/-- Reduce an unbounded integer to the int64 value with the same low 64 bits
(two's complement), as the C++ `int64_t` arithmetic does. -/
def wrap64 (x : Int) : Int := (x + 2 ^ 63) % 2 ^ 64 - 2 ^ 63

/-- The uint64 (low 64 bits, two's complement) view of an integer. -/
def toU64 (x : Int) : Nat := (x % 2 ^ 64).toNat

def shl64 (x s : Int) : Int := x * 2 ^ s.toNat

def shr64 (x s : Int) : Int := Int.fdiv x (2 ^ s.toNat)

def and64 (x y : Int) : Int := Int.ofNat (Nat.land (toU64 x) (toU64 y))

def or64 (x y : Int) : Int := Int.ofNat (Nat.lor (toU64 x) (toU64 y))

def xor64 (x y : Int) : Int := Int.ofNat (Nat.xor (toU64 x) (toU64 y))

/-- Iteration variable of a reduction domain: opaque for this module, merely
passed through to the reduction node. -/
structure IterVar where
  name : String
deriving DecidableEq, Repr

/-- IR expression nodes used by this module.  `Call` is the named-intrinsic
call node; `Reduce` carries the commutative reducer inline (its formal
accumulator lists, combining expressions and identity elements), the source
list, iteration domain, predicate and value index, plus the node type that
the `Reduce::make` factory records. -/
inductive Expr where
  | IntImm (t : Ty) (value : Int)
  | UIntImm (t : Ty) (value : Nat)
  | FloatImm (t : Ty) (value : Rat)
  | Var (name : String) (t : Ty)
  | Cast (t : Ty) (value : Expr)
  | Broadcast (value : Expr) (lanes : Nat)
  | Add (a b : Expr)
  | Mul (a b : Expr)
  | Div (a b : Expr)
  | Mod (a b : Expr)
  | Min (a b : Expr)
  | Max (a b : Expr)
  | Call (t : Ty) (fname : String) (args : List Expr)
  | Reduce (t : Ty) (comb_lhs comb_rhs comb_result comb_identity : List Expr)
      (source : List Expr) (axis : List IterVar) (cond : Expr) (value_index : Nat)

def Expr.type : Expr → Ty
  | .IntImm t _ => t
  | .UIntImm t _ => t
  | .FloatImm t _ => t
  | .Var _ t => t
  | .Cast t _ => t
  | .Broadcast v l => { v.type with lanes := l }
  | .Add a _ => a.type
  | .Mul a _ => a.type
  | .Div a _ => a.type
  | .Mod a _ => a.type
  | .Min a _ => a.type
  | .Max a _ => a.type
  | .Call t _ _ => t
  | .Reduce t _ _ _ _ _ _ _ _ => t

/-- Error taxonomy for the fatal aborts of this layer. -/
inductive IrError where
  | TypeMismatch
  | DivideByZero
  | UnsupportedOperand
deriving DecidableEq, Repr

/-- `IntImm::make`: the stored value is an `int64_t`. -/
def mkIntImm (t : Ty) (v : Int) : Expr := Expr.IntImm t (wrap64 v)

/-- `UIntImm::make`: the stored value is a `uint64_t`. -/
def mkUIntImm (t : Ty) (v : Nat) : Expr := Expr.UIntImm t (v % 2 ^ 64)

def mkFloatImm (t : Ty) (v : Rat) : Expr := Expr.FloatImm t v

/-- Modelled from the spec: the scalar case of the repository header helper
`make_const` (declared outside the given source file) — a literal of the
target type is built by native numeric conversion of an int64 value
(truncation/widening per the target kind and width). -/
def MakeConstScalarI (t : Ty) (v : Int) : Expr :=
  match t.code with
  | TypeCode.int => mkIntImm t v
  | TypeCode.uint => mkUIntImm t (toU64 v)
  | TypeCode.float => Expr.FloatImm t (v : Rat)
  | TypeCode.handle => mkIntImm t v

/-- Truncation of a rational toward zero, as C++ `static_cast<int64_t>(double)`. -/
def ratTrunc (q : Rat) : Int := Int.tdiv q.num (q.den : Int)

/-- Modelled from the spec: the scalar case of the repository header helper
`make_const` for a double value — conversion to an integer kind truncates
toward zero. -/
def MakeConstScalarF (t : Ty) (v : Rat) : Expr :=
  match t.code with
  | TypeCode.int => mkIntImm t (ratTrunc v)
  | TypeCode.uint => mkUIntImm t (toU64 (ratTrunc v))
  | TypeCode.float => Expr.FloatImm t v
  | TypeCode.handle => mkIntImm t (ratTrunc v)

/-- Modelled from the spec: the repository header helper `make_const`
(not under the given source file) — a scalar literal for lanes = 1,
otherwise the scalar element literal broadcast to the lane count. -/
def make_const_i (t : Ty) (v : Int) : Expr :=
  if t.lanes = 1 then MakeConstScalarI t v
  else Expr.Broadcast (MakeConstScalarI t.element_of v) t.lanes

/-- Modelled from the spec: `make_const` for a double value. -/
def make_const_f (t : Ty) (v : Rat) : Expr :=
  if t.lanes = 1 then MakeConstScalarF t v
  else Expr.Broadcast (MakeConstScalarF t.element_of v) t.lanes

def make_zero (t : Ty) : Expr := make_const_i t 0

/-- `SimpleCast` from the source: wrap in a cast node only if the type differs. -/
def SimpleCast (t : Ty) (value : Expr) : Expr :=
  if value.type = t then value else Expr.Cast t value

/-- `cast` from the source: no-op on equal type; scalar target folds int/float
literals through `make_const`; vector target with scalar source casts the
element then broadcasts; vector-to-vector demands equal lanes. -/
def cast (t : Ty) (value : Expr) : Except IrError Expr :=
  if value.type = t then Except.ok value
  else if t.lanes = 1 then
    match value with
    | Expr.IntImm _ v => Except.ok (make_const_i t v)
    | Expr.FloatImm _ v => Except.ok (make_const_f t v)
    | _ => Except.ok (Expr.Cast t value)
  else if value.type.lanes = 1 then
    let vtype := t.element_of
    let value2 :=
      if value.type ≠ vtype then
        match value with
        | Expr.IntImm _ v => make_const_i vtype v
        | Expr.FloatImm _ v => make_const_f vtype v
        | _ => Expr.Cast vtype value
      else value
    Except.ok (Expr.Broadcast value2 t.lanes)
  else if value.type.lanes = t.lanes then Except.ok (Expr.Cast t value)
  else Except.error IrError.TypeMismatch

/-- The lane-reconciliation step of `BinaryOpMatchTypes`: broadcast a scalar
against a vector, otherwise demand equal lane counts (CHECK → fatal). -/
def matchLanes (lhs rhs : Expr) : Except IrError (Expr × Expr) :=
  if lhs.type.lanes == 1 && rhs.type.lanes != 1 then
    Except.ok (Expr.Broadcast lhs rhs.type.lanes, rhs)
  else if rhs.type.lanes == 1 && lhs.type.lanes != 1 then
    Except.ok (lhs, Expr.Broadcast rhs lhs.type.lanes)
  else if lhs.type.lanes = rhs.type.lanes then Except.ok (lhs, rhs)
  else Except.error IrError.TypeMismatch

/-- The kind/width-reconciliation step of `BinaryOpMatchTypes` (runs with the
lane counts already equal). -/
def matchKinds (lhs rhs : Expr) : Except IrError (Expr × Expr) :=
  if lhs.type = rhs.type then Except.ok (lhs, rhs)
  else if !lhs.type.is_float && rhs.type.is_float then
    match cast rhs.type lhs with
    | Except.error e => Except.error e
    | Except.ok l => Except.ok (l, rhs)
  else if lhs.type.is_float && !rhs.type.is_float then
    match cast lhs.type rhs with
    | Except.error e => Except.error e
    | Except.ok r => Except.ok (lhs, r)
  else if (lhs.type.is_int && rhs.type.is_int) || (lhs.type.is_uint && rhs.type.is_uint) then
    if lhs.type.bits < rhs.type.bits then
      match cast rhs.type lhs with
      | Except.error e => Except.error e
      | Except.ok l => Except.ok (l, rhs)
    else
      match cast lhs.type rhs with
      | Except.error e => Except.error e
      | Except.ok r => Except.ok (lhs, r)
  else if (lhs.type.is_int && rhs.type.is_uint) || (lhs.type.is_uint && rhs.type.is_int) then
    let bits := Nat.max lhs.type.bits rhs.type.bits
    Except.ok (SimpleCast (mkInt bits lhs.type.lanes) lhs,
               SimpleCast (mkInt bits rhs.type.lanes) rhs)
  else Except.error IrError.TypeMismatch

/-- `BinaryOpMatchTypes` from the source: quick path on equal types, then lane
reconciliation, then kind/width reconciliation. -/
def BinaryOpMatchTypes (lhs rhs : Expr) : Except IrError (Expr × Expr) :=
  if lhs.type = rhs.type then Except.ok (lhs, rhs)
  else
    match matchLanes lhs rhs with
    | Except.error e => Except.error e
    | Except.ok (l, r) => matchKinds l r

/-- The loop of `ConstPowerHelper`: `val` is strictly positive on entry;
an odd value succeeds only when it is exactly 1. -/
def helperNat (v s : Nat) : Bool × Nat :=
  if h : v = 0 then (true, s)
  else if v % 2 = 1 then (v == 1, s)
  else helperNat (v / 2) (s + 1)
termination_by v
decreasing_by
  exact Nat.div_lt_self (Nat.pos_of_ne_zero h) (by omega)

/-- `ConstPowerHelper` instantiated at int64. -/
def ConstPowerHelperI (val : Int) (shift : Int) : Bool × Int :=
  if val ≤ 0 then (false, shift)
  else
    let r := helperNat val.toNat 0
    (r.1, (r.2 : Int))

/-- `ConstPowerHelper` instantiated at uint64 (`val <= 0` means `val == 0`). -/
def ConstPowerHelperU (val : Nat) (shift : Int) : Bool × Int :=
  if val = 0 then (false, shift)
  else
    let r := helperNat val 0
    (r.1, (r.2 : Int))

/-- `is_const_power_of_two_integer` from the source; the C++ out-parameter
`*shift` is modelled by threading its value through the result pair. -/
def is_const_power_of_two_integer (x : Expr) (shift : Int) : Bool × Int :=
  match x with
  | Expr.IntImm _ v => ConstPowerHelperI v shift
  | Expr.UIntImm _ v => ConstPowerHelperU v shift
  | _ => (false, shift)

/-- `rtype` of the folding macros: the operand type with the larger bit width
(`ta.bits() >= tb.bits() ? ta : tb`). -/
def rtypeOf (a b : Expr) : Ty := if b.type.bits ≤ a.type.bits then a.type else b.type

def isIntLitVal (e : Expr) (v : Int) : Bool :=
  match e with
  | Expr.IntImm _ w => w == v
  | _ => false

def isFloatLitVal (e : Expr) (v : Rat) : Bool :=
  match e with
  | Expr.FloatImm _ w => decide (w = v)
  | _ => false

/-- The checks of `operator+` after the int-literal pair fold. -/
def addTail (a b : Expr) (rtype : Ty) : Except IrError Expr :=
  if isIntLitVal a 0 then Except.ok (SimpleCast rtype b)
  else if isIntLitVal b 0 then Except.ok (SimpleCast rtype a)
  else
    match a, b with
    | Expr.FloatImm _ xa, Expr.FloatImm _ xb => Except.ok (mkFloatImm rtype (xa + xb))
    | _, _ =>
      if isFloatLitVal a 0 then Except.ok (SimpleCast rtype b)
      else if isFloatLitVal b 0 then Except.ok (SimpleCast rtype a)
      else Except.ok (Expr.Add a b)

/-- `operator+` from the source (general arithmetic fold: promote first). -/
def add (a0 b0 : Expr) : Except IrError Expr :=
  match BinaryOpMatchTypes a0 b0 with
  | Except.error e => Except.error e
  | Except.ok (a, b) =>
    let rtype := rtypeOf a b
    match a, b with
    | Expr.IntImm _ va, Expr.IntImm _ vb => Except.ok (mkIntImm rtype (va + vb))
    | _, _ => addTail a b rtype

/-- The checks of `operator*` after the int-literal pair fold. -/
def mulTail (a b : Expr) (rtype : Ty) : Except IrError Expr :=
  if isIntLitVal a 1 then Except.ok (SimpleCast rtype b)
  else if isIntLitVal a 0 then Except.ok (SimpleCast rtype a)
  else if isIntLitVal b 1 then Except.ok (SimpleCast rtype a)
  else if isIntLitVal b 0 then Except.ok (SimpleCast rtype b)
  else
    match a, b with
    | Expr.FloatImm _ xa, Expr.FloatImm _ xb => Except.ok (mkFloatImm rtype (xa * xb))
    | _, _ =>
      if isFloatLitVal a 1 then Except.ok (SimpleCast rtype b)
      else if isFloatLitVal a 0 then Except.ok (SimpleCast rtype a)
      else if isFloatLitVal b 1 then Except.ok (SimpleCast rtype a)
      else if isFloatLitVal b 0 then Except.ok (SimpleCast rtype b)
      else Except.ok (Expr.Mul a b)

/-- `operator*` from the source. -/
def mul (a0 b0 : Expr) : Except IrError Expr :=
  match BinaryOpMatchTypes a0 b0 with
  | Except.error e => Except.error e
  | Except.ok (a, b) =>
    let rtype := rtypeOf a b
    match a, b with
    | Expr.IntImm _ va, Expr.IntImm _ vb => Except.ok (mkIntImm rtype (va * vb))
    | _, _ => mulTail a b rtype

/-- The float-literal checks of `operator/` (`CHECK_NE` on a zero divisor). -/
def divFloatTail (a b : Expr) (rtype : Ty) : Except IrError Expr :=
  if isFloatLitVal a 0 then Except.ok (SimpleCast rtype a)
  else if isFloatLitVal b 1 then Except.ok (SimpleCast rtype a)
  else if isFloatLitVal b 0 then Except.error IrError.DivideByZero
  else Except.ok (Expr.Div a b)

/-- The checks of `operator/` after the sign-guarded int-literal pair fold. -/
def divTail (a b : Expr) (rtype : Ty) : Except IrError Expr :=
  if isIntLitVal a 0 then Except.ok (SimpleCast rtype a)
  else if isIntLitVal b 1 then Except.ok (SimpleCast rtype a)
  else if isIntLitVal b 0 then Except.error IrError.DivideByZero
  else
    match a, b with
    | Expr.FloatImm _ xa, Expr.FloatImm _ xb =>
      if xb ≠ 0 then Except.ok (mkFloatImm rtype (xa / xb))
      else divFloatTail a b rtype
    | _, _ => divFloatTail a b rtype

/-- `operator/` from the source: the int-literal pair folds only for a
non-negative dividend and positive divisor (C++ truncating division). -/
def div (a0 b0 : Expr) : Except IrError Expr :=
  match BinaryOpMatchTypes a0 b0 with
  | Except.error e => Except.error e
  | Except.ok (a, b) =>
    let rtype := rtypeOf a b
    match a, b with
    | Expr.IntImm _ va, Expr.IntImm _ vb =>
      if 0 ≤ va ∧ 0 < vb then Except.ok (mkIntImm rtype (Int.tdiv va vb))
      else divTail a b rtype
    | _, _ => divTail a b rtype

/-- The fall-through of the index fold of `operator%`: promote, then build the
generic node. -/
def modGeneric (a0 b0 : Expr) : Except IrError Expr :=
  match BinaryOpMatchTypes a0 b0 with
  | Except.error e => Except.error e
  | Except.ok (a, b) => Except.ok (Expr.Mod a b)

/-- The checks of `operator%` after the sign-guarded int-literal pair fold. -/
def modTail (a b : Expr) (rtype : Ty) : Except IrError Expr :=
  if isIntLitVal a 0 then Except.ok (SimpleCast rtype a)
  else if isIntLitVal b 1 then Except.ok (make_zero rtype)
  else if isIntLitVal b 0 then Except.error IrError.DivideByZero
  else modGeneric a b

/-- `operator%` from the source: an index-only fold evaluated on the raw
pre-promotion operand types (C++ truncating remainder). -/
def mod (a0 b0 : Expr) : Except IrError Expr :=
  if IsIndexType a0.type && IsIndexType b0.type then
    let rtype := rtypeOf a0 b0
    match a0, b0 with
    | Expr.IntImm _ va, Expr.IntImm _ vb =>
      if 0 ≤ va ∧ 0 < vb then Except.ok (mkIntImm rtype (Int.tmod va vb))
      else modTail a0 b0 rtype
    | _, _ => modTail a0 b0 rtype
  else modGeneric a0 b0

def shrGeneric (a0 b0 : Expr) : Except IrError Expr :=
  match BinaryOpMatchTypes a0 b0 with
  | Except.error e => Except.error e
  | Except.ok (a, b) => Except.ok (Expr.Call a.type "shift_right" [a, b])

/-- `operator>>` from the source: index-only fold, `x >> 0` shortcut, else a
named intrinsic call. -/
def shr (a0 b0 : Expr) : Except IrError Expr :=
  if IsIndexType a0.type && IsIndexType b0.type then
    let rtype := rtypeOf a0 b0
    match a0, b0 with
    | Expr.IntImm _ va, Expr.IntImm _ vb => Except.ok (mkIntImm rtype (shr64 va vb))
    | _, _ =>
      if isIntLitVal b0 0 then Except.ok (SimpleCast rtype a0)
      else shrGeneric a0 b0
  else shrGeneric a0 b0

def shlGeneric (a0 b0 : Expr) : Except IrError Expr :=
  match BinaryOpMatchTypes a0 b0 with
  | Except.error e => Except.error e
  | Except.ok (a, b) => Except.ok (Expr.Call a.type "shift_left" [a, b])

/-- `operator<<` from the source. -/
def shl (a0 b0 : Expr) : Except IrError Expr :=
  if IsIndexType a0.type && IsIndexType b0.type then
    let rtype := rtypeOf a0 b0
    match a0, b0 with
    | Expr.IntImm _ va, Expr.IntImm _ vb => Except.ok (mkIntImm rtype (shl64 va vb))
    | _, _ =>
      if isIntLitVal b0 0 then Except.ok (SimpleCast rtype a0)
      else shlGeneric a0 b0
  else shlGeneric a0 b0

def bitAndGeneric (a0 b0 : Expr) : Except IrError Expr :=
  match BinaryOpMatchTypes a0 b0 with
  | Except.error e => Except.error e
  | Except.ok (a, b) => Except.ok (Expr.Call a.type "bitwise_and" [a, b])

/-- `operator&` from the source. -/
def bitAnd (a0 b0 : Expr) : Except IrError Expr :=
  if IsIndexType a0.type && IsIndexType b0.type then
    let rtype := rtypeOf a0 b0
    match a0, b0 with
    | Expr.IntImm _ va, Expr.IntImm _ vb => Except.ok (mkIntImm rtype (and64 va vb))
    | _, _ => bitAndGeneric a0 b0
  else bitAndGeneric a0 b0

def bitOrGeneric (a0 b0 : Expr) : Except IrError Expr :=
  match BinaryOpMatchTypes a0 b0 with
  | Except.error e => Except.error e
  | Except.ok (a, b) => Except.ok (Expr.Call a.type "bitwise_or" [a, b])

/-- `operator|` from the source. -/
def bitOr (a0 b0 : Expr) : Except IrError Expr :=
  if IsIndexType a0.type && IsIndexType b0.type then
    let rtype := rtypeOf a0 b0
    match a0, b0 with
    | Expr.IntImm _ va, Expr.IntImm _ vb => Except.ok (mkIntImm rtype (or64 va vb))
    | _, _ => bitOrGeneric a0 b0
  else bitOrGeneric a0 b0

def bitXorGeneric (a0 b0 : Expr) : Except IrError Expr :=
  match BinaryOpMatchTypes a0 b0 with
  | Except.error e => Except.error e
  | Except.ok (a, b) => Except.ok (Expr.Call a.type "bitwise_xor" [a, b])

/-- `operator^` from the source. -/
def bitXor (a0 b0 : Expr) : Except IrError Expr :=
  if IsIndexType a0.type && IsIndexType b0.type then
    let rtype := rtypeOf a0 b0
    match a0, b0 with
    | Expr.IntImm _ va, Expr.IntImm _ vb => Except.ok (mkIntImm rtype (xor64 va vb))
    | _, _ => bitXorGeneric a0 b0
  else bitXorGeneric a0 b0

/-- `operator~` from the source: a CHECK restricts the kind, then a named
intrinsic call is always built (no literal fold path exists). -/
def bitNot (a : Expr) : Except IrError Expr :=
  if a.type.is_int || a.type.is_uint then
    Except.ok (Expr.Call a.type "bitwise_not" [a])
  else Except.error IrError.UnsupportedOperand

def f64max : Rat := (2 : Rat) ^ 1024 - (2 : Rat) ^ 971

/-- Modelled from the spec: the collaborator `Type::min()` (declared outside
the given source file) — the type-minimum representable value as a literal of
the type; for float the most negative finite double. -/
def Ty.minExpr (t : Ty) : Expr :=
  match t.code with
  | TypeCode.int => make_const_i t (-(2 ^ (t.bits - 1)))
  | TypeCode.uint => make_const_i t 0
  | TypeCode.float => make_const_f t (-f64max)
  | TypeCode.handle => make_const_i t 0

/-- Modelled from the spec: the collaborator `Type::max()` — the type-maximum
representable value as a literal of the type. -/
def Ty.maxExpr (t : Ty) : Expr :=
  match t.code with
  | TypeCode.int => make_const_i t (2 ^ (t.bits - 1) - 1)
  | TypeCode.uint => make_const_i t (2 ^ t.bits - 1)
  | TypeCode.float => make_const_f t f64max
  | TypeCode.handle => make_const_i t 0

/-- `sum(source, rdom)` from the source: fresh formals of the source type, an
`Add` combiner, identity 0, a literal-true predicate and value index 0. -/
def sum (source : Expr) (rdom : List IterVar) : Expr :=
  let x := Expr.Var "x" source.type
  let y := Expr.Var "y" source.type
  Expr.Reduce source.type [x] [y] [Expr.Add x y] [make_zero source.type]
    [source] rdom (mkUIntImm (mkUInt 1 1) 1) 0

/-- `max(source, rdom)` from the source: `Max` combiner with the type-minimum
identity. -/
def max_red (source : Expr) (rdom : List IterVar) : Expr :=
  let x := Expr.Var "x" source.type
  let y := Expr.Var "y" source.type
  Expr.Reduce source.type [x] [y] [Expr.Max x y] [Ty.minExpr source.type]
    [source] rdom (mkUIntImm (mkUInt 1 1) 1) 0

/-- `min(source, rdom)` from the source: `Min` combiner with the type-maximum
identity. -/
def min_red (source : Expr) (rdom : List IterVar) : Expr :=
  let x := Expr.Var "x" source.type
  let y := Expr.Var "y" source.type
  Expr.Reduce source.type [x] [y] [Expr.Min x y] [Ty.maxExpr source.type]
    [source] rdom (mkUIntImm (mkUInt 1 1) 1) 0

/-- `prod(source, rdom)` from the source: `Mul` combiner with identity 1. -/
def prod (source : Expr) (rdom : List IterVar) : Expr :=
  let x := Expr.Var "x" source.type
  let y := Expr.Var "y" source.type
  Expr.Reduce source.type [x] [y] [Expr.Mul x y] [make_const_i source.type 1]
    [source] rdom (mkUIntImm (mkUInt 1 1) 1) 0

/-- A literal node whose stored value and type are mutually consistent, as the
collaborator literal factories guarantee (matching kind, scalar, value within
the stored fixed-width range); `true` on every non-literal node. -/
def litOkB : Expr → Bool
  | Expr.IntImm t v =>
      t.code == TypeCode.int && t.lanes == 1 &&
      decide (-(2 ^ 63) ≤ v) && decide (v < 2 ^ 63)
  | Expr.UIntImm t v => t.code == TypeCode.uint && t.lanes == 1 && decide (v < 2 ^ 64)
  | Expr.FloatImm t _ => t.code == TypeCode.float && t.lanes == 1
  | _ => true

def isLit : Expr → Bool
  | Expr.IntImm _ _ => true
  | Expr.UIntImm _ _ => true
  | Expr.FloatImm _ _ => true
  | _ => false

/- ### Basic lemmas about the embedding -/

@[simp] theorem type_IntImm (t : Ty) (v : Int) : (Expr.IntImm t v).type = t := rfl

@[simp] theorem type_UIntImm (t : Ty) (v : Nat) : (Expr.UIntImm t v).type = t := rfl

@[simp] theorem type_FloatImm (t : Ty) (v : Rat) : (Expr.FloatImm t v).type = t := rfl

@[simp] theorem type_Var (s : String) (t : Ty) : (Expr.Var s t).type = t := rfl

@[simp] theorem type_Cast (t : Ty) (v : Expr) : (Expr.Cast t v).type = t := rfl

@[simp] theorem type_Call (t : Ty) (n : String) (args : List Expr) :
    (Expr.Call t n args).type = t := rfl

theorem SimpleCast_of_eq {t : Ty} {v : Expr} (h : v.type = t) : SimpleCast t v = v := by
  simp [SimpleCast, h]

@[simp] theorem SimpleCast_type (t : Ty) (v : Expr) : (SimpleCast t v).type = t := by
  unfold SimpleCast
  split
  · assumption
  · rfl

theorem BinaryOpMatchTypes_of_eq {a b : Expr} (h : a.type = b.type) :
    BinaryOpMatchTypes a b = Except.ok (a, b) := by
  simp [BinaryOpMatchTypes, h]

theorem rtypeOf_of_eq {a b : Expr} (h : a.type = b.type) : rtypeOf a b = a.type := by
  simp [rtypeOf, h]

theorem wrap64_eq {v : Int} (h1 : -(2 ^ 63) ≤ v) (h2 : v < 2 ^ 63) : wrap64 v = v := by
  unfold wrap64
  omega

@[simp] theorem wrap64_zero : wrap64 0 = 0 := by norm_num [wrap64]

@[simp] theorem wrap64_one : wrap64 1 = 1 := by
  rw [wrap64_eq] <;> norm_num

/- ### Claim C10: power-of-two literal detection -/

theorem helperNat_pow (k s : Nat) : helperNat (2 ^ k) s = (true, s + k) := by
  induction k generalizing s with
  | zero => simp [helperNat]
  | succ n ih =>
    rw [helperNat]
    have h0 : ¬(2 ^ (n + 1) = 0) := by positivity
    have h1 : ¬(2 ^ (n + 1) % 2 = 1) := by
      rw [Nat.pow_succ, Nat.mul_mod_left]
      omega
    have h2 : 2 ^ (n + 1) / 2 = 2 ^ n := by
      rw [Nat.pow_succ]
      exact Nat.mul_div_cancel _ (by omega)
    simp only [h0, h1, if_false, dif_neg, ite_false, h2, ih]
    have h3 : s + 1 + n = s + (n + 1) := by omega
    rw [h3]
    simp

theorem helperNat_true {v : Nat} (hv : 1 ≤ v) :
    ∀ s, (helperNat v s).1 = true → ∃ k, v = 2 ^ k := by
  induction v using Nat.strong_induction_on with
  | _ v ih =>
    intro s h
    rw [helperNat] at h
    by_cases h0 : v = 0
    · omega
    · by_cases hodd : v % 2 = 1
      · simp only [h0, dif_neg, ite_false, hodd, if_true, ite_true] at h
        have : v = 1 := by
          have := of_decide_eq_true (by simpa using h)
          omega
        exact ⟨0, by omega⟩
      · simp only [h0, dif_neg, ite_false, hodd, if_false] at h
        have hv2 : 1 ≤ v / 2 := by omega
        have hlt : v / 2 < v := Nat.div_lt_self (by omega) (by omega)
        obtain ⟨k, hk⟩ := ih (v / 2) hlt hv2 (s + 1) h
        exact ⟨k + 1, by omega⟩

/-- C10: `is_const_power_of_two_integer(x, shift)` returns true exactly when
`x` is a signed- or unsigned-integer literal whose value is a positive power
of two; in that case the base-2 logarithm of the value is stored in the shift
out-parameter; every non-literal expression and every literal value ≤ 0
yields false with the out-parameter untouched on the non-literal path. -/
theorem claim_C10 (x : Expr) (s : Int) :
    ((is_const_power_of_two_integer x s).1 = true ↔
      (∃ (t : Ty) (k : Nat), x = Expr.IntImm t ((2 : Int) ^ k) ∨ x = Expr.UIntImm t (2 ^ k)))
    ∧ (∀ (t : Ty) (v : Int), x = Expr.IntImm t v → ∀ k : Nat, v = (2 : Int) ^ k →
        is_const_power_of_two_integer x s = (true, (k : Int)))
    ∧ (∀ (t : Ty) (v : Nat), x = Expr.UIntImm t v → ∀ k : Nat, v = 2 ^ k →
        is_const_power_of_two_integer x s = (true, (k : Int)))
    ∧ (∀ (t : Ty) (v : Int), x = Expr.IntImm t v → v ≤ 0 →
        is_const_power_of_two_integer x s = (false, s))
    ∧ ((∀ t v, x ≠ Expr.IntImm t v) → (∀ t v, x ≠ Expr.UIntImm t v) →
        is_const_power_of_two_integer x s = (false, s)) := by
  refine ⟨?_, ?_, ?_, ?_, ?_⟩
  · constructor
    · intro h
      match x with
      | Expr.IntImm t v =>
        simp only [is_const_power_of_two_integer, ConstPowerHelperI] at h
        by_cases hv : v ≤ 0
        · simp [hv] at h
        · simp only [hv, if_false, ite_false] at h
          obtain ⟨k, hk⟩ := helperNat_true (show 1 ≤ v.toNat by omega) 0 h
          refine ⟨t, k, Or.inl ?_⟩
          have : v = ((v.toNat : Int)) := by omega
          rw [this, hk]
          push_cast
          rfl
      | Expr.UIntImm t v =>
        simp only [is_const_power_of_two_integer, ConstPowerHelperU] at h
        by_cases hv : v = 0
        · simp [hv] at h
        · simp only [hv, if_false, ite_false] at h
          obtain ⟨k, hk⟩ := helperNat_true (show 1 ≤ v by omega) 0 h
          exact ⟨t, k, Or.inr (by rw [hk])⟩
      | Expr.FloatImm t v => simp [is_const_power_of_two_integer] at h
      | Expr.Var n t => simp [is_const_power_of_two_integer] at h
      | Expr.Cast t v => simp [is_const_power_of_two_integer] at h
      | Expr.Broadcast v l => simp [is_const_power_of_two_integer] at h
      | Expr.Add a b => simp [is_const_power_of_two_integer] at h
      | Expr.Mul a b => simp [is_const_power_of_two_integer] at h
      | Expr.Div a b => simp [is_const_power_of_two_integer] at h
      | Expr.Mod a b => simp [is_const_power_of_two_integer] at h
      | Expr.Min a b => simp [is_const_power_of_two_integer] at h
      | Expr.Max a b => simp [is_const_power_of_two_integer] at h
      | Expr.Call t n args => simp [is_const_power_of_two_integer] at h
      | Expr.Reduce t cl cr cres cid src ax c vi =>
        simp [is_const_power_of_two_integer] at h
    · rintro ⟨t, k, h | h⟩
      · subst h
        have hlt : (0 : Int) < 2 ^ k := by positivity
        have hpos : ¬((2 : Int) ^ k ≤ 0) := not_le.mpr hlt
        have htn : ((2 : Int) ^ k).toNat = 2 ^ k := by
          rw [show ((2 : Int) ^ k) = ((2 ^ k : Nat) : Int) by push_cast; ring]
          exact Int.toNat_natCast _
        simp [is_const_power_of_two_integer, ConstPowerHelperI, hpos, htn, helperNat_pow]
      · subst h
        have hz : ¬(2 ^ k = 0) := Nat.pos_iff_ne_zero.mp (by positivity)
        simp [is_const_power_of_two_integer, ConstPowerHelperU, hz, helperNat_pow]
  · intro t v hx k hk
    subst hx
    have h2 : (0 : Int) < 2 ^ k := by positivity
    have hpos : ¬(v ≤ 0) := by omega
    have htn : v.toNat = 2 ^ k := by
      rw [hk, show ((2 : Int) ^ k) = ((2 ^ k : Nat) : Int) by push_cast; ring]
      exact Int.toNat_natCast _
    simp [is_const_power_of_two_integer, ConstPowerHelperI, hpos, htn, helperNat_pow]
  · intro t v hx k hk
    subst hx
    have h2 : 0 < 2 ^ k := by positivity
    have hz : ¬(v = 0) := by omega
    simp [is_const_power_of_two_integer, ConstPowerHelperU, hz, hk, helperNat_pow]
  · intro t v hx hv
    subst hx
    simp [is_const_power_of_two_integer, ConstPowerHelperI, hv]
  · intro hInt hUInt
    match x with
    | Expr.IntImm t v => exact absurd rfl (hInt t v)
    | Expr.UIntImm t v => exact absurd rfl (hUInt t v)
    | Expr.FloatImm t v => rfl
    | Expr.Var n t => rfl
    | Expr.Cast t v => rfl
    | Expr.Broadcast v l => rfl
    | Expr.Add a b => rfl
    | Expr.Mul a b => rfl
    | Expr.Div a b => rfl
    | Expr.Mod a b => rfl
    | Expr.Min a b => rfl
    | Expr.Max a b => rfl
    | Expr.Call t n args => rfl
    | Expr.Reduce t cl cr cres cid src ax c vi => rfl

/-- C10 witness at concrete inputs: literal 8 is detected with shift 3;
literal -8 and a symbolic variable are rejected with the shift untouched. -/
theorem claim_C10_witness :
    is_const_power_of_two_integer (Expr.IntImm (mkInt 32 1) 8) 7 = (true, 3)
    ∧ is_const_power_of_two_integer (Expr.IntImm (mkInt 32 1) (-8)) 7 = (false, 7)
    ∧ is_const_power_of_two_integer (Expr.Var "x" (mkInt 32 1)) 7 = (false, 7) := by
  refine ⟨?_, ?_, ?_⟩
  · have h := (claim_C10 (Expr.IntImm (mkInt 32 1) 8) 7).2.1 (mkInt 32 1) 8 rfl 3
      (by norm_num)
    simpa using h
  · exact (claim_C10 (Expr.IntImm (mkInt 32 1) (-8)) 7).2.2.2.1 (mkInt 32 1) (-8) rfl
      (by norm_num)
  · exact (claim_C10 (Expr.Var "x" (mkInt 32 1)) 7).2.2.2.2
      (by intro t v h; exact Expr.noConfusion h)
      (by intro t v h; exact Expr.noConfusion h)

/- ### Claim C1: literal zero divisors -/

/-- C1 counterexample: the claim demands a fatal DivideByZero for a literal
zero divisor regardless of the dividend, but `0 / 0` silently returns the
literal-zero dividend (the dividend rule fires before the divisor check). -/
theorem claim_C1_cex :
    div (Expr.IntImm (mkInt 32 1) 0) (Expr.IntImm (mkInt 32 1) 0) =
      Except.ok (Expr.IntImm (mkInt 32 1) 0) := by
  rfl

/-- C1 (amended): only signed-int and float zero divisors (`IntImm`/
`FloatImm` nodes) are inspected by the fold: a same-type literal zero divisor
of those kinds fails with DivideByZero unless the dividend is itself the
literal zero, which is returned unchanged.  An unsigned zero divisor
(`UIntImm 0`) is never inspected, so uint division by literal zero silently
builds a generic div node.  Modulo raises only when the operands are
index-typed, while non-index modulo builds a generic node without raising. -/
theorem claim_C1_amended (t : Ty) (a : Expr) (hl : t.lanes = 1) (hta : a.type = t) :
    (t.code = TypeCode.int →
      div a (Expr.IntImm t 0) =
        (if isIntLitVal a 0 then Except.ok a else Except.error IrError.DivideByZero))
    ∧ (t.code = TypeCode.float → litOkB a = true →
      div a (Expr.FloatImm t 0) =
        (if isFloatLitVal a 0 then Except.ok a else Except.error IrError.DivideByZero))
    ∧ (t.code = TypeCode.uint → litOkB a = true →
      div a (Expr.UIntImm t 0) = Except.ok (Expr.Div a (Expr.UIntImm t 0)))
    ∧ (IsIndexType t = true →
      mod a (Expr.IntImm t 0) =
        (if isIntLitVal a 0 then Except.ok a else Except.error IrError.DivideByZero))
    ∧ (t.code = TypeCode.int → IsIndexType t = false →
      mod a (Expr.IntImm t 0) = Except.ok (Expr.Mod a (Expr.IntImm t 0))) := by
  subst hta
  refine ⟨?_, ?_, ?_, ?_, ?_⟩
  · intro hcode
    cases a
    case IntImm t' v =>
      by_cases hv : v = 0 <;>
        simp [div, BinaryOpMatchTypes_of_eq, rtypeOf, divTail, isIntLitVal, SimpleCast, hv]
    all_goals
      simp [div, BinaryOpMatchTypes_of_eq, rtypeOf, divTail, divFloatTail, isIntLitVal,
        isFloatLitVal]
  · intro hcode hok
    cases a
    case IntImm t' v =>
      simp only [Expr.type, litOkB, Bool.and_eq_true, beq_iff_eq] at hok hcode
      rw [hcode] at hok
      simp at hok
    case UIntImm t' v =>
      simp only [Expr.type, litOkB, Bool.and_eq_true, beq_iff_eq] at hok hcode
      rw [hcode] at hok
      simp at hok
    case FloatImm t' v =>
      by_cases hv : v = 0 <;>
        simp [div, BinaryOpMatchTypes_of_eq, rtypeOf, divTail, divFloatTail, isIntLitVal,
          isFloatLitVal, SimpleCast, hv]
    all_goals
      simp [div, BinaryOpMatchTypes_of_eq, rtypeOf, divTail, divFloatTail, isIntLitVal,
        isFloatLitVal]
  · intro hcode hok
    cases a
    case IntImm t' v =>
      simp only [Expr.type, litOkB, Bool.and_eq_true, beq_iff_eq] at hok hcode
      rw [hcode] at hok
      simp at hok
    case FloatImm t' v =>
      simp only [Expr.type, litOkB, Bool.and_eq_true, beq_iff_eq] at hok hcode
      rw [hcode] at hok
      simp at hok
    all_goals
      simp [div, BinaryOpMatchTypes_of_eq, rtypeOf, divTail, divFloatTail, isIntLitVal,
        isFloatLitVal]
  · intro hidx
    cases a
    case IntImm t' v =>
      have hidx' : IsIndexType t' = true := by simpa using hidx
      by_cases hv : v = 0 <;>
        simp [mod, hidx', rtypeOf, modTail, isIntLitVal, SimpleCast, hv, Expr.type]
    all_goals
      simp only [Expr.type] at hidx
      simp [mod, hidx, rtypeOf, modTail, modGeneric, isIntLitVal, Expr.type,
        BinaryOpMatchTypes_of_eq]
  · intro hcode hnidx
    simp [mod, hnidx, modGeneric, BinaryOpMatchTypes_of_eq]

/-- C1 amended-claim witness at concrete inputs: a symbolic int32 dividend
over literal zero fails with DivideByZero; a uint32 dividend over the
unsigned literal zero silently builds a generic div node; and a non-index
int8 modulo by literal zero silently builds a generic node. -/
theorem claim_C1_witness :
    div (Expr.Var "x" (mkInt 32 1)) (Expr.IntImm (mkInt 32 1) 0) =
      Except.error IrError.DivideByZero
    ∧ div (Expr.Var "x" (mkUInt 32 1)) (Expr.UIntImm (mkUInt 32 1) 0) =
      Except.ok (Expr.Div (Expr.Var "x" (mkUInt 32 1)) (Expr.UIntImm (mkUInt 32 1) 0))
    ∧ mod (Expr.Var "x" (mkInt 8 1)) (Expr.IntImm (mkInt 8 1) 0) =
      Except.ok (Expr.Mod (Expr.Var "x" (mkInt 8 1)) (Expr.IntImm (mkInt 8 1) 0)) := by
  refine ⟨?_, ?_, ?_⟩
  · have h := (claim_C1_amended (mkInt 32 1) (Expr.Var "x" (mkInt 32 1)) rfl rfl).1 rfl
    simpa [isIntLitVal] using h
  · exact (claim_C1_amended (mkUInt 32 1) (Expr.Var "x" (mkUInt 32 1)) rfl rfl).2.2.1
      rfl rfl
  · exact (claim_C1_amended (mkInt 8 1) (Expr.Var "x" (mkInt 8 1)) rfl rfl).2.2.2.2 rfl rfl

/- ### Claim C2: sign preconditions of division/modulo folding -/

/-- C2 counterexample: a float literal pair folds regardless of the dividend
sign — `(-6.0) / 2.0` yields the folded literal `-3.0`, contradicting the
claim that literal operands fold only for a non-negative dividend. -/
theorem claim_C2_cex :
    div (Expr.FloatImm (mkFloat 32 1) (-6)) (Expr.FloatImm (mkFloat 32 1) 2) =
      Except.ok (Expr.FloatImm (mkFloat 32 1) (-3)) := by
  have h62 : ((-6 : Rat) / 2) = -3 := by norm_num
  norm_num [div, BinaryOpMatchTypes_of_eq, rtypeOf, divTail, isIntLitVal, isFloatLitVal,
    mkFloatImm, h62]

/-- C2 (amended): for same-type scalar signed-int literal pairs, division
(and, on index types, modulo) evaluates a new quotient/remainder literal
exactly when dividend ≥ 0 and divisor > 0; otherwise a zero dividend returns
itself, a divisor of one returns the dividend (modulo: literal zero), a zero
divisor is a fatal DivideByZero, and any other combination builds the generic
node — in particular `(-6) / 2` yields a generic division node, not `-3`.
Float literal pairs, by contrast, fold whenever the divisor is nonzero. -/
theorem claim_C2_amended (t : Ty) (va vb : Int) (hcode : t.code = TypeCode.int)
    (hl : t.lanes = 1)
    (h1 : -(2 ^ 63) ≤ va) (h2 : va < 2 ^ 63) (h3 : -(2 ^ 63) ≤ vb) (h4 : vb < 2 ^ 63) :
    (div (Expr.IntImm t va) (Expr.IntImm t vb) =
      (if 0 ≤ va ∧ 0 < vb then Except.ok (Expr.IntImm t (Int.tdiv va vb))
       else if va = 0 then Except.ok (Expr.IntImm t 0)
       else if vb = 1 then Except.ok (Expr.IntImm t va)
       else if vb = 0 then Except.error IrError.DivideByZero
       else Except.ok (Expr.Div (Expr.IntImm t va) (Expr.IntImm t vb))))
    ∧ (IsIndexType t = true →
      mod (Expr.IntImm t va) (Expr.IntImm t vb) =
        (if 0 ≤ va ∧ 0 < vb then Except.ok (Expr.IntImm t (Int.tmod va vb))
         else if va = 0 then Except.ok (Expr.IntImm t 0)
         else if vb = 1 then Except.ok (Expr.IntImm t 0)
         else if vb = 0 then Except.error IrError.DivideByZero
         else Except.ok (Expr.Mod (Expr.IntImm t va) (Expr.IntImm t vb))))
    ∧ div (Expr.IntImm (mkInt 32 1) (-6)) (Expr.IntImm (mkInt 32 1) 2) =
        Except.ok (Expr.Div (Expr.IntImm (mkInt 32 1) (-6)) (Expr.IntImm (mkInt 32 1) 2)) := by
  have hb : BinaryOpMatchTypes (Expr.IntImm t va) (Expr.IntImm t vb) =
      Except.ok (Expr.IntImm t va, Expr.IntImm t vb) := BinaryOpMatchTypes_of_eq (by simp)
  have hrt : rtypeOf (Expr.IntImm t va) (Expr.IntImm t vb) = t := rtypeOf_of_eq (by simp)
  refine ⟨?_, ?_, by rfl⟩
  · by_cases hc : 0 ≤ va ∧ 0 < vb
    · have hdnn : 0 ≤ Int.tdiv va vb := Int.tdiv_nonneg hc.1 (le_of_lt hc.2)
      have hdle : Int.tdiv va vb ≤ va := by
        rw [Int.tdiv_eq_ediv hc.1 (le_of_lt hc.2)]
        exact Int.ediv_le_self _ hc.1
      have hw : wrap64 (Int.tdiv va vb) = Int.tdiv va vb := wrap64_eq (by omega) (by omega)
      simp [div, hb, hrt, hc, mkIntImm, hw]
    · simp only [div, hb, hrt, hc, if_false, ite_false]
      by_cases hva : va = 0
      · subst hva
        simp [divTail, isIntLitVal, SimpleCast, hc, mkIntImm]
      · by_cases hvb : vb = 1
        · subst hvb
          simp [divTail, isIntLitVal, hva, SimpleCast, hc]
        · by_cases hvb0 : vb = 0
          · subst hvb0
            simp [divTail, isIntLitVal, hva, hvb, hc]
          · simp [divTail, divFloatTail, isIntLitVal, isFloatLitVal, hva, hvb, hvb0, hc]
  · intro hidx
    by_cases hc : 0 ≤ va ∧ 0 < vb
    · have hmnn : 0 ≤ Int.tmod va vb := Int.tmod_nonneg vb hc.1
      have hmlt : Int.tmod va vb < vb := Int.tmod_lt_of_pos va hc.2
      have hw : wrap64 (Int.tmod va vb) = Int.tmod va vb := wrap64_eq (by omega) (by omega)
      simp [mod, hidx, hrt, hc, mkIntImm, hw]
    · by_cases hva : va = 0
      · subst hva
        simp [mod, hidx, hrt, hc, modTail, isIntLitVal, SimpleCast, mkIntImm]
      · by_cases hvb : vb = 1
        · subst hvb
          simp [mod, hidx, hrt, hc, modTail, isIntLitVal, hva, make_zero,
            make_const_i, MakeConstScalarI, mkIntImm, hl, hcode, wrap64_eq]
        · by_cases hvb0 : vb = 0
          · subst hvb0
            simp [mod, hidx, hrt, hc, modTail, isIntLitVal, hva, hvb]
          · simp [mod, hidx, hrt, hc, modTail, modGeneric, hb, isIntLitVal, hva,
              hvb, hvb0]

/-- C2 amended-claim witness at concrete inputs: `7 / 2` folds to `3`,
`7 % 2` folds to `1`, and `(-6) / 2` stays a generic division node. -/
theorem claim_C2_witness :
    div (Expr.IntImm (mkInt 32 1) 7) (Expr.IntImm (mkInt 32 1) 2) =
      Except.ok (Expr.IntImm (mkInt 32 1) 3)
    ∧ mod (Expr.IntImm (mkInt 32 1) 7) (Expr.IntImm (mkInt 32 1) 2) =
      Except.ok (Expr.IntImm (mkInt 32 1) 1)
    ∧ div (Expr.IntImm (mkInt 32 1) (-6)) (Expr.IntImm (mkInt 32 1) 2) =
      Except.ok (Expr.Div (Expr.IntImm (mkInt 32 1) (-6)) (Expr.IntImm (mkInt 32 1) 2)) := by
  have h := claim_C2_amended (mkInt 32 1) 7 2 rfl rfl (by decide) (by decide) (by decide)
    (by decide)
  refine ⟨?_, ?_, h.2.2⟩
  · have h1 := h.1
    norm_num at h1
    exact h1
  · have h2 := h.2.1 rfl
    norm_num at h2
    exact h2

/- ### Claim C3: algebraic identity laws -/

/-- C3 counterexample: the identity laws fail outside signed-int/float
operands — a float-typed `x % 1` builds a generic mod node instead of the
claimed literal zero, and a uint-typed `x + 0` builds a generic add node
instead of returning `x` (uint literals are never inspected by the
arithmetic folds). -/
theorem claim_C3_cex :
    mod (Expr.Var "x" (mkFloat 32 1)) (Expr.FloatImm (mkFloat 32 1) 1) =
      Except.ok (Expr.Mod (Expr.Var "x" (mkFloat 32 1)) (Expr.FloatImm (mkFloat 32 1) 1))
    ∧ add (Expr.Var "x" (mkUInt 32 1)) (Expr.UIntImm (mkUInt 32 1) 0) =
      Except.ok (Expr.Add (Expr.Var "x" (mkUInt 32 1)) (Expr.UIntImm (mkUInt 32 1) 0)) :=
  ⟨rfl, rfl⟩

/-- Helper for the index-typed `x % 1` law: evaluating the source's
`operator%` at a literal divisor 1 over index-typed operands. -/
theorem mod_one_of_index {t : Ty} (h : IsIndexType t = true) (x : Expr) (hx : x.type = t) :
    mod x (Expr.IntImm t 1) = Except.ok (Expr.IntImm t 0) := by
  have hp : (t.code = TypeCode.int ∧ t.lanes = 1) ∧ (t.bits = 32 ∨ t.bits = 64) := by
    simpa [IsIndexType, Ty.is_int] using h
  have hmz : make_zero t = Expr.IntImm t 0 := by
    simp [make_zero, make_const_i, MakeConstScalarI, mkIntImm, hp.1.1, hp.1.2]
  cases x
  case IntImm t' v =>
    simp only [Expr.type] at hx
    subst hx
    by_cases hv : 0 ≤ v
    · simp [mod, h, rtypeOf, mkIntImm, hv, Expr.type]
    · simp [mod, h, rtypeOf, modTail, isIntLitVal, Expr.type, hv,
        show ¬(v = 0) by omega, hmz]
  all_goals
    simp only [Expr.type] at hx
    simp [mod, h, hx, rtypeOf, modTail, isIntLitVal, Expr.type, hmz]

/-- C3 (amended): the identity laws hold for scalar signed-int and float
typed operands with a same-type literal 0/1 — `x+0 ≡ x`, `x*1 ≡ x`,
`x*0 ≡ 0`, `x/1 ≡ x` — while `x%1 ≡ 0` holds exactly for index-typed
operands; uint-typed operands and non-index modulo yield generic nodes. -/
theorem claim_C3_amended (t : Ty) (x : Expr) (hl : t.lanes = 1) (hx : x.type = t)
    (hok : litOkB x = true) :
    (t.code = TypeCode.int →
      add x (Expr.IntImm t 0) = Except.ok x
      ∧ mul x (Expr.IntImm t 1) = Except.ok x
      ∧ mul x (Expr.IntImm t 0) = Except.ok (Expr.IntImm t 0)
      ∧ div x (Expr.IntImm t 1) = Except.ok x)
    ∧ (t.code = TypeCode.float →
      add x (Expr.FloatImm t 0) = Except.ok x
      ∧ mul x (Expr.FloatImm t 1) = Except.ok x
      ∧ mul x (Expr.FloatImm t 0) = Except.ok (Expr.FloatImm t 0)
      ∧ div x (Expr.FloatImm t 1) = Except.ok x)
    ∧ (IsIndexType t = true → mod x (Expr.IntImm t 1) = Except.ok (Expr.IntImm t 0)) := by
  subst hx
  refine ⟨?_, ?_, ?_⟩
  · intro hcode
    cases x
    case IntImm t' v =>
      simp only [Expr.type, litOkB, Bool.and_eq_true, beq_iff_eq, decide_eq_true_eq] at hok
      have hw : wrap64 v = v := wrap64_eq (by omega) (by omega)
      refine ⟨?_, ?_, ?_, ?_⟩
      · simp [add, BinaryOpMatchTypes_of_eq, rtypeOf, mkIntImm, hw]
      · simp [mul, BinaryOpMatchTypes_of_eq, rtypeOf, mkIntImm, hw]
      · simp [mul, BinaryOpMatchTypes_of_eq, rtypeOf, mkIntImm]
      · by_cases hv : 0 ≤ v
        · simp [div, BinaryOpMatchTypes_of_eq, rtypeOf, mkIntImm, hv, hw]
        · simp [div, BinaryOpMatchTypes_of_eq, rtypeOf, divTail, isIntLitVal,
            SimpleCast, hv, show ¬(v = 0) by omega]
    case UIntImm t' v =>
      simp only [Expr.type] at hcode
      simp [litOkB, hcode] at hok
    case FloatImm t' v =>
      simp only [Expr.type] at hcode
      simp [litOkB, hcode] at hok
    all_goals
      refine ⟨?_, ?_, ?_, ?_⟩ <;>
        simp [add, mul, div, BinaryOpMatchTypes_of_eq, rtypeOf, addTail, mulTail,
          divTail, isIntLitVal, isFloatLitVal, SimpleCast]
  · intro hcode
    cases x
    case IntImm t' v =>
      simp only [Expr.type] at hcode
      simp [litOkB, hcode] at hok
    case UIntImm t' v =>
      simp only [Expr.type] at hcode
      simp [litOkB, hcode] at hok
    case FloatImm t' v =>
      refine ⟨?_, ?_, ?_, ?_⟩
      · simp [add, BinaryOpMatchTypes_of_eq, rtypeOf, addTail, isIntLitVal, mkFloatImm]
      · simp [mul, BinaryOpMatchTypes_of_eq, rtypeOf, mulTail, isIntLitVal, mkFloatImm]
      · simp [mul, BinaryOpMatchTypes_of_eq, rtypeOf, mulTail, isIntLitVal,
          isFloatLitVal, SimpleCast, mkFloatImm]
      · simp [div, BinaryOpMatchTypes_of_eq, rtypeOf, divTail, isIntLitVal, mkFloatImm]
    all_goals
      refine ⟨?_, ?_, ?_, ?_⟩ <;>
        simp [add, mul, div, BinaryOpMatchTypes_of_eq, rtypeOf, addTail, mulTail,
          divTail, divFloatTail, isIntLitVal, isFloatLitVal, SimpleCast]
  · intro hidx
    exact mod_one_of_index hidx x rfl

/-- C3 amended-claim witness at concrete inputs: for a symbolic int32 `x`,
`x+0`, `x*1`, `x/1` return `x`, `x*0` returns literal 0 and `x%1` returns
literal 0. -/
theorem claim_C3_witness :
    add (Expr.Var "x" (mkInt 32 1)) (Expr.IntImm (mkInt 32 1) 0) =
      Except.ok (Expr.Var "x" (mkInt 32 1))
    ∧ mul (Expr.Var "x" (mkInt 32 1)) (Expr.IntImm (mkInt 32 1) 1) =
      Except.ok (Expr.Var "x" (mkInt 32 1))
    ∧ mul (Expr.Var "x" (mkInt 32 1)) (Expr.IntImm (mkInt 32 1) 0) =
      Except.ok (Expr.IntImm (mkInt 32 1) 0)
    ∧ div (Expr.Var "x" (mkInt 32 1)) (Expr.IntImm (mkInt 32 1) 1) =
      Except.ok (Expr.Var "x" (mkInt 32 1))
    ∧ mod (Expr.Var "x" (mkInt 32 1)) (Expr.IntImm (mkInt 32 1) 1) =
      Except.ok (Expr.IntImm (mkInt 32 1) 0) := by
  have h := claim_C3_amended (mkInt 32 1) (Expr.Var "x" (mkInt 32 1)) rfl rfl rfl
  have hi := h.1 rfl
  exact ⟨hi.1, hi.2.1, hi.2.2.1, hi.2.2.2, h.2.2 rfl⟩

/- ### Claim C6: float modulo never folds -/

/-- C6: for float-kind operands the index-only fold of `operator%` is
skipped entirely: the result is exactly the generic mod node over the
promoted operands (or promotion's fatal error) and never a folded literal;
with equal float types the node holds the original operands unchanged. -/
theorem claim_C6 (a b : Expr) (ha : a.type.code = TypeCode.float)
    (_hb : b.type.code = TypeCode.float) :
    mod a b = Except.map (fun p => Expr.Mod p.1 p.2) (BinaryOpMatchTypes a b)
    ∧ (a.type = b.type → mod a b = Except.ok (Expr.Mod a b)) := by
  have hidx : IsIndexType a.type = false := by
    simp [IsIndexType, Ty.is_int, ha]
  constructor
  · simp only [mod, hidx, Bool.false_and, Bool.and_eq_true, false_and, if_false,
      ite_false, modGeneric]
    cases BinaryOpMatchTypes a b with
    | error e => rfl
    | ok p => cases p; rfl
  · intro heq
    simp [mod, hidx, modGeneric, BinaryOpMatchTypes_of_eq heq]

/-- C6 witness: `5.5 % 2.0` (both literal float32) builds a generic mod
node, not a folded literal. -/
theorem claim_C6_witness :
    mod (Expr.FloatImm (mkFloat 32 1) (11 / 2)) (Expr.FloatImm (mkFloat 32 1) 2) =
      Except.ok (Expr.Mod (Expr.FloatImm (mkFloat 32 1) (11 / 2))
        (Expr.FloatImm (mkFloat 32 1) 2)) :=
  (claim_C6 (Expr.FloatImm (mkFloat 32 1) (11 / 2)) (Expr.FloatImm (mkFloat 32 1) 2)
    rfl rfl).2 rfl

/- ### Claim C4: mixed signed/unsigned promotion -/

/-- C4: promoting a signed-int operand with an unsigned-int operand (either
order, equal lane counts) wraps both in `SimpleCast` to the signed-int type
of the maximum bit width with each operand's lane count preserved; both
result types have signed-int kind, never unsigned. -/
theorem claim_C4 (a b : Expr) (hl : a.type.lanes = b.type.lanes)
    (h : (a.type.code = TypeCode.int ∧ b.type.code = TypeCode.uint) ∨
         (a.type.code = TypeCode.uint ∧ b.type.code = TypeCode.int)) :
    BinaryOpMatchTypes a b =
      Except.ok (SimpleCast (mkInt (Nat.max a.type.bits b.type.bits) a.type.lanes) a,
                 SimpleCast (mkInt (Nat.max a.type.bits b.type.bits) b.type.lanes) b)
    ∧ (∀ a2 b2, BinaryOpMatchTypes a b = Except.ok (a2, b2) →
        a2.type = mkInt (Nat.max a.type.bits b.type.bits) a.type.lanes
        ∧ b2.type = mkInt (Nat.max a.type.bits b.type.bits) b.type.lanes
        ∧ a2.type.code = TypeCode.int ∧ b2.type.code = TypeCode.int) := by
  have hne : ¬(a.type = b.type) := by
    intro heq
    rw [heq] at h
    rcases h with ⟨h1, h2⟩ | ⟨h1, h2⟩ <;> rw [h1] at h2 <;> exact TypeCode.noConfusion h2
  have hml : matchLanes a b = Except.ok (a, b) := by
    simp [matchLanes, hl, bne]
  have hmain : BinaryOpMatchTypes a b =
      Except.ok (SimpleCast (mkInt (Nat.max a.type.bits b.type.bits) a.type.lanes) a,
                 SimpleCast (mkInt (Nat.max a.type.bits b.type.bits) b.type.lanes) b) := by
    rcases h with ⟨h1, h2⟩ | ⟨h1, h2⟩ <;>
      simp [BinaryOpMatchTypes, hne, hml, matchKinds, Ty.is_float, Ty.is_int, Ty.is_uint,
        h1, h2]
  refine ⟨hmain, ?_⟩
  intro a2 b2 heq
  rw [hmain] at heq
  cases heq
  simp [SimpleCast_type, mkInt]

/-- C4 witness: promoting symbolic `int32` with `uint32` leaves the signed
operand alone (cast is the identity on its own type) and casts the unsigned
operand to signed `int32`. -/
theorem claim_C4_witness :
    BinaryOpMatchTypes (Expr.Var "x" (mkInt 32 1)) (Expr.Var "y" (mkUInt 32 1)) =
      Except.ok (Expr.Var "x" (mkInt 32 1),
        Expr.Cast (mkInt 32 1) (Expr.Var "y" (mkUInt 32 1))) := by
  have h := (claim_C4 (Expr.Var "x" (mkInt 32 1)) (Expr.Var "y" (mkUInt 32 1)) rfl
    (Or.inl ⟨rfl, rfl⟩)).1
  simpa [SimpleCast, mkInt, mkUInt] using h

/- ### Claim C7: scalar literal casts fold through native conversion -/

/-- C7: casting a scalar int or float literal to a different scalar target
type folds directly into the `make_const` literal of the target type, and the
int ↔ float round trip is the identity on exactly representable values
(|v| ≤ 2^53, the double mantissa range). -/
theorem claim_C7 :
    (∀ (t t' : Ty) (v : Int), t.lanes = 1 → ¬(t' = t) →
      cast t (Expr.IntImm t' v) = Except.ok (MakeConstScalarI t v))
    ∧ (∀ (t t' : Ty) (v : Rat), t.lanes = 1 → ¬(t' = t) →
      cast t (Expr.FloatImm t' v) = Except.ok (MakeConstScalarF t v))
    ∧ (∀ (tI tF : Ty) (v : Int), tI.code = TypeCode.int → tF.code = TypeCode.float →
        tI.lanes = 1 → tF.lanes = 1 → -(2 ^ 53) ≤ v → v ≤ 2 ^ 53 →
        cast tF (Expr.IntImm tI v) = Except.ok (Expr.FloatImm tF (v : Rat))
        ∧ cast tI (Expr.FloatImm tF (v : Rat)) = Except.ok (Expr.IntImm tI v)) := by
  have hfold : ∀ (t t' : Ty) (v : Int), t.lanes = 1 → ¬(t' = t) →
      cast t (Expr.IntImm t' v) = Except.ok (MakeConstScalarI t v) := by
    intro t t' v hl hne
    simp [cast, Expr.type, hne, hl, make_const_i]
  have hfoldf : ∀ (t t' : Ty) (v : Rat), t.lanes = 1 → ¬(t' = t) →
      cast t (Expr.FloatImm t' v) = Except.ok (MakeConstScalarF t v) := by
    intro t t' v hl hne
    simp [cast, Expr.type, hne, hl, make_const_f]
  refine ⟨hfold, hfoldf, ?_⟩
  intro tI tF v hI hF hlI hlF hlo hhi
  have hneF : ¬(tI = tF) := by
    intro heq
    rw [heq, hF] at hI
    exact TypeCode.noConfusion hI
  have hneI : ¬(tF = tI) := fun heq => hneF heq.symm
  constructor
  · rw [hfold tF tI v hlF hneF]
    simp [MakeConstScalarI, hF]
  · rw [hfoldf tI tF (v : Rat) hlI hneI]
    have htr : ratTrunc (v : Rat) = v := by
      simp [ratTrunc, Rat.num_intCast, Rat.den_intCast]
    have hw : wrap64 v = v := wrap64_eq (by omega) (by omega)
    simp [MakeConstScalarF, hI, htr, mkIntImm, hw]

/-- C7 witness: casting literal int32 7 to float32 folds to the float
literal 7.0, and casting that back folds to the int literal 7. -/
theorem claim_C7_witness :
    cast (mkFloat 32 1) (Expr.IntImm (mkInt 32 1) 7) =
      Except.ok (Expr.FloatImm (mkFloat 32 1) 7)
    ∧ cast (mkInt 32 1) (Expr.FloatImm (mkFloat 32 1) 7) =
      Except.ok (Expr.IntImm (mkInt 32 1) 7) := by
  have h := claim_C7.2.2 (mkInt 32 1) (mkFloat 32 1) 7 rfl rfl rfl rfl (by norm_num)
    (by norm_num)
  constructor
  · have h1 := h.1
    norm_num at h1
    exact h1
  · have h2 := h.2
    norm_num at h2
    exact h2

/- ### Claim C8: promotion lane discipline -/

@[simp] theorem MakeConstScalarI_type (t : Ty) (v : Int) : (MakeConstScalarI t v).type = t := by
  unfold MakeConstScalarI
  split <;> rfl

@[simp] theorem MakeConstScalarF_type (t : Ty) (v : Rat) : (MakeConstScalarF t v).type = t := by
  unfold MakeConstScalarF
  split <;> rfl

@[simp] theorem make_const_i_type (t : Ty) (v : Int) : (make_const_i t v).type = t := by
  unfold make_const_i
  split
  · simp
  · show ({ (MakeConstScalarI t.element_of v).type with lanes := t.lanes } = t)
    simp [Ty.element_of]

@[simp] theorem make_const_f_type (t : Ty) (v : Rat) : (make_const_f t v).type = t := by
  unfold make_const_f
  split
  · simp
  · show ({ (MakeConstScalarF t.element_of v).type with lanes := t.lanes } = t)
    simp [Ty.element_of]

/-- The `cast` factory always produces a node of the requested type. -/
theorem cast_type {t : Ty} {v r : Expr} (h : cast t v = Except.ok r) : r.type = t := by
  unfold cast at h
  by_cases h1 : v.type = t
  · rw [if_pos h1] at h
    cases h
    exact h1
  · rw [if_neg h1] at h
    by_cases h2 : t.lanes = 1
    · rw [if_pos h2] at h
      cases v <;> cases h <;> simp [Expr.type]
    · rw [if_neg h2] at h
      by_cases h3 : v.type.lanes = 1
      · rw [if_pos h3] at h
        cases h
        show ({ Expr.type _ with lanes := t.lanes } = t)
        split
        · cases v <;> simp [Expr.type, Ty.element_of]
        · next hveq =>
          rw [not_not] at hveq
          rw [hveq]
          simp [Ty.element_of]
      · rw [if_neg h3] at h
        by_cases h4 : v.type.lanes = t.lanes
        · rw [if_pos h4] at h
          cases h
          rfl
        · rw [if_neg h4] at h
          cases h

/-- The kind-reconciliation step preserves the (already equal) lane counts of
its operands on success. -/
theorem matchKinds_lanes {l r l2 r2 : Expr} (hl : l.type.lanes = r.type.lanes)
    (h : matchKinds l r = Except.ok (l2, r2)) :
    l2.type.lanes = l.type.lanes ∧ r2.type.lanes = l.type.lanes := by
  unfold matchKinds at h
  by_cases h1 : l.type = r.type
  · rw [if_pos h1] at h
    cases h
    exact ⟨rfl, hl.symm⟩
  · rw [if_neg h1] at h
    by_cases h2 : (!l.type.is_float && r.type.is_float) = true
    · rw [if_pos h2] at h
      cases hc : cast r.type l with
      | error e => rw [hc] at h; cases h
      | ok l' =>
        rw [hc] at h
        cases h
        exact ⟨by rw [cast_type hc]; exact hl.symm, hl.symm⟩
    · rw [if_neg h2] at h
      by_cases h3 : (l.type.is_float && !r.type.is_float) = true
      · rw [if_pos h3] at h
        cases hc : cast l.type r with
        | error e => rw [hc] at h; cases h
        | ok r' =>
          rw [hc] at h
          cases h
          exact ⟨rfl, by rw [cast_type hc]⟩
      · rw [if_neg h3] at h
        by_cases h4 :
            (l.type.is_int && r.type.is_int || l.type.is_uint && r.type.is_uint) = true
        · rw [if_pos h4] at h
          by_cases h5 : l.type.bits < r.type.bits
          · rw [if_pos h5] at h
            cases hc : cast r.type l with
            | error e => rw [hc] at h; cases h
            | ok l' =>
              rw [hc] at h
              cases h
              exact ⟨by rw [cast_type hc]; exact hl.symm, hl.symm⟩
          · rw [if_neg h5] at h
            cases hc : cast l.type r with
            | error e => rw [hc] at h; cases h
            | ok r' =>
              rw [hc] at h
              cases h
              exact ⟨rfl, by rw [cast_type hc]⟩
        · rw [if_neg h4] at h
          by_cases h6 :
              (l.type.is_int && r.type.is_uint || l.type.is_uint && r.type.is_int) = true
          · rw [if_pos h6] at h
            cases h
            exact ⟨by simp [SimpleCast_type, mkInt], by simp [SimpleCast_type, mkInt, hl.symm]⟩
          · rw [if_neg h6] at h
            cases h

/-- C8: promotion is a no-op on equal types; with exactly one scalar operand
the scalar is broadcast so that on success both results carry the vector's
lane count (in the kind-compatible case the broadcast node is returned
directly); two multi-lane operands with different lane counts fail fatally
with TypeMismatch. -/
theorem claim_C8 :
    (∀ a b : Expr, a.type = b.type → BinaryOpMatchTypes a b = Except.ok (a, b))
    ∧ (∀ (a b a2 b2 : Expr) (L : Nat), a.type.lanes = 1 → b.type.lanes = L → L ≠ 1 →
        BinaryOpMatchTypes a b = Except.ok (a2, b2) →
        a2.type.lanes = L ∧ b2.type.lanes = L)
    ∧ (∀ (a b a2 b2 : Expr) (L : Nat), a.type.lanes = L → b.type.lanes = 1 → L ≠ 1 →
        BinaryOpMatchTypes a b = Except.ok (a2, b2) →
        a2.type.lanes = L ∧ b2.type.lanes = L)
    ∧ (∀ a b : Expr, a.type.lanes ≠ 1 → b.type.lanes ≠ 1 →
        a.type.lanes ≠ b.type.lanes →
        BinaryOpMatchTypes a b = Except.error IrError.TypeMismatch)
    ∧ (∀ a b : Expr, a.type.lanes = 1 → b.type.lanes ≠ 1 →
        { a.type with lanes := b.type.lanes } = b.type →
        BinaryOpMatchTypes a b = Except.ok (Expr.Broadcast a b.type.lanes, b)) := by
  refine ⟨fun a b h => BinaryOpMatchTypes_of_eq h, ?_, ?_, ?_, ?_⟩
  · intro a b a2 b2 L h1 hL hne h
    have hneq : ¬(a.type = b.type) := by
      intro heq
      rw [heq] at h1
      omega
    have hml : matchLanes a b = Except.ok (Expr.Broadcast a L, b) := by
      simp [matchLanes, h1, hL, hne]
    rw [BinaryOpMatchTypes, if_neg hneq, hml] at h
    have hlb : (Expr.Broadcast a L).type.lanes = b.type.lanes := by
      simp [Expr.type, hL]
    have := matchKinds_lanes hlb h
    simpa [Expr.type] using this
  · intro a b a2 b2 L hL h1 hne h
    have hneq : ¬(a.type = b.type) := by
      intro heq
      rw [heq] at hL
      omega
    have hml : matchLanes a b = Except.ok (a, Expr.Broadcast b L) := by
      simp [matchLanes, h1, hL, hne]
    rw [BinaryOpMatchTypes, if_neg hneq, hml] at h
    have hlb : a.type.lanes = (Expr.Broadcast b L).type.lanes := by
      simp [Expr.type, hL]
    have := matchKinds_lanes hlb h
    simpa [Expr.type, hL] using this
  · intro a b h1 h2 hne
    have hneq : ¬(a.type = b.type) := by
      intro heq
      exact hne (by rw [heq])
    have hml : matchLanes a b = Except.error IrError.TypeMismatch := by
      simp [matchLanes, h1, h2, hne]
    rw [BinaryOpMatchTypes, if_neg hneq, hml]
  · intro a b h1 hne heq
    have hneq : ¬(a.type = b.type) := by
      intro habs
      rw [habs] at h1
      exact hne h1
    have hml : matchLanes a b = Except.ok (Expr.Broadcast a b.type.lanes, b) := by
      simp [matchLanes, h1, hne]
    rw [BinaryOpMatchTypes, if_neg hneq, hml]
    have hbt : (Expr.Broadcast a b.type.lanes).type = b.type := by
      simp [Expr.type, heq]
    simp [matchKinds, hbt]

/-- C8 witness: equal types are untouched; a scalar int32 literal against a
4-lane int32 expression is broadcast to 4 lanes; 4-lane against 2-lane
operands fail with TypeMismatch. -/
theorem claim_C8_witness :
    BinaryOpMatchTypes (Expr.Var "x" (mkInt 32 1)) (Expr.Var "y" (mkInt 32 1)) =
      Except.ok (Expr.Var "x" (mkInt 32 1), Expr.Var "y" (mkInt 32 1))
    ∧ BinaryOpMatchTypes (Expr.IntImm (mkInt 32 1) 3) (Expr.Var "v" (mkInt 32 4)) =
      Except.ok (Expr.Broadcast (Expr.IntImm (mkInt 32 1) 3) 4, Expr.Var "v" (mkInt 32 4))
    ∧ BinaryOpMatchTypes (Expr.Var "a" (mkInt 32 4)) (Expr.Var "b" (mkInt 32 2)) =
      Except.error IrError.TypeMismatch := by
  refine ⟨claim_C8.1 _ _ rfl, ?_, ?_⟩
  · have h := claim_C8.2.2.2.2 (Expr.IntImm (mkInt 32 1) 3) (Expr.Var "v" (mkInt 32 4))
      rfl (by decide) (by rfl)
    simpa using h
  · exact claim_C8.2.2.2.1 (Expr.Var "a" (mkInt 32 4)) (Expr.Var "b" (mkInt 32 2))
      (by decide) (by decide) (by decide)

/- ### Claim C5: reduction builders -/

/-- C5: for every source expression and every iteration domain (the empty
domain included, with no validation), the four reduction builders produce a
reduction node whose combiner has two distinct formals of the source's type,
whose identity element is `make_const 0` for sum, `make_const 1` for prod,
the type-maximum for min and the type-minimum for max, whose predicate is the
boolean literal true (a `UInt(1)` literal 1), and whose value index is 0; for
scalar signed-int sources the sum/prod identities are the literals 0 and 1. -/
theorem claim_C5 (source : Expr) (rdom : List IterVar) :
    (sum source rdom = Expr.Reduce source.type [Expr.Var "x" source.type]
      [Expr.Var "y" source.type]
      [Expr.Add (Expr.Var "x" source.type) (Expr.Var "y" source.type)]
      [make_zero source.type] [source] rdom (Expr.UIntImm (mkUInt 1 1) 1) 0)
    ∧ (prod source rdom = Expr.Reduce source.type [Expr.Var "x" source.type]
      [Expr.Var "y" source.type]
      [Expr.Mul (Expr.Var "x" source.type) (Expr.Var "y" source.type)]
      [make_const_i source.type 1] [source] rdom (Expr.UIntImm (mkUInt 1 1) 1) 0)
    ∧ (min_red source rdom = Expr.Reduce source.type [Expr.Var "x" source.type]
      [Expr.Var "y" source.type]
      [Expr.Min (Expr.Var "x" source.type) (Expr.Var "y" source.type)]
      [Ty.maxExpr source.type] [source] rdom (Expr.UIntImm (mkUInt 1 1) 1) 0)
    ∧ (max_red source rdom = Expr.Reduce source.type [Expr.Var "x" source.type]
      [Expr.Var "y" source.type]
      [Expr.Max (Expr.Var "x" source.type) (Expr.Var "y" source.type)]
      [Ty.minExpr source.type] [source] rdom (Expr.UIntImm (mkUInt 1 1) 1) 0)
    ∧ Expr.Var "x" source.type ≠ Expr.Var "y" source.type
    ∧ (Expr.Var "x" source.type).type = source.type
    ∧ (Expr.Var "y" source.type).type = source.type
    ∧ (Expr.UIntImm (mkUInt 1 1) 1).type.is_bool = true
    ∧ (source.type.code = TypeCode.int → source.type.lanes = 1 →
        make_zero source.type = Expr.IntImm source.type 0
        ∧ make_const_i source.type 1 = Expr.IntImm source.type 1) := by
  refine ⟨rfl, rfl, rfl, rfl, ?_, rfl, rfl, rfl, ?_⟩
  · intro hcontra
    injection hcontra with h1 h2
    exact absurd h1 (by decide)
  · intro hcode hl
    constructor
    · simp [make_zero, make_const_i, MakeConstScalarI, mkIntImm, hcode, hl]
    · simp [make_const_i, MakeConstScalarI, mkIntImm, hcode, hl]

/-- C5 witness: reductions of a symbolic int32 source over the empty domain
still build the full reduction node, with identities 0, 1, int32-max and
int32-min. -/
theorem claim_C5_witness :
    sum (Expr.Var "s" (mkInt 32 1)) [] = Expr.Reduce (mkInt 32 1)
      [Expr.Var "x" (mkInt 32 1)] [Expr.Var "y" (mkInt 32 1)]
      [Expr.Add (Expr.Var "x" (mkInt 32 1)) (Expr.Var "y" (mkInt 32 1))]
      [Expr.IntImm (mkInt 32 1) 0] [Expr.Var "s" (mkInt 32 1)] []
      (Expr.UIntImm (mkUInt 1 1) 1) 0
    ∧ prod (Expr.Var "s" (mkInt 32 1)) [] = Expr.Reduce (mkInt 32 1)
      [Expr.Var "x" (mkInt 32 1)] [Expr.Var "y" (mkInt 32 1)]
      [Expr.Mul (Expr.Var "x" (mkInt 32 1)) (Expr.Var "y" (mkInt 32 1))]
      [Expr.IntImm (mkInt 32 1) 1] [Expr.Var "s" (mkInt 32 1)] []
      (Expr.UIntImm (mkUInt 1 1) 1) 0
    ∧ Ty.maxExpr (mkInt 32 1) = Expr.IntImm (mkInt 32 1) 2147483647
    ∧ Ty.minExpr (mkInt 32 1) = Expr.IntImm (mkInt 32 1) (-2147483648) := by
  have h := claim_C5 (Expr.Var "s" (mkInt 32 1)) []
  have hid := h.2.2.2.2.2.2.2.2 rfl rfl
  refine ⟨?_, ?_, by rfl, by rfl⟩
  · rw [h.1]
    simp only [Expr.type] at hid ⊢
    rw [show make_zero (mkInt 32 1) = Expr.IntImm (mkInt 32 1) 0 from hid.1]
  · rw [h.2.1]
    simp only [Expr.type] at hid ⊢
    rw [show make_const_i (mkInt 32 1) 1 = Expr.IntImm (mkInt 32 1) 1 from hid.2]

/- ### Claim C9: shifts and bitwise operators -/

theorem IsIndexType_code {t : Ty} (h : IsIndexType t = true) : t.code = TypeCode.int := by
  simp only [IsIndexType, Ty.is_int, Bool.and_eq_true, beq_iff_eq] at h
  exact h.1.1

theorem isIntLitVal_eq {b : Expr} {v : Int} (h : isIntLitVal b v = true) :
    ∃ t, b = Expr.IntImm t v := by
  cases b <;> simp only [isIntLitVal] at h
  case IntImm t w =>
    rw [beq_iff_eq] at h
    exact ⟨t, by rw [h]⟩
  all_goals cases h

theorem shlGeneric_shape {a b r : Expr} (h : shlGeneric a b = Except.ok r) :
    ∃ t2 a2 b2, r = Expr.Call t2 "shift_left" [a2, b2] := by
  unfold shlGeneric at h
  cases hb : BinaryOpMatchTypes a b with
  | error e => rw [hb] at h; cases h
  | ok p =>
    obtain ⟨a2, b2⟩ := p
    rw [hb] at h
    cases h
    exact ⟨_, _, _, rfl⟩

theorem shrGeneric_shape {a b r : Expr} (h : shrGeneric a b = Except.ok r) :
    ∃ t2 a2 b2, r = Expr.Call t2 "shift_right" [a2, b2] := by
  unfold shrGeneric at h
  cases hb : BinaryOpMatchTypes a b with
  | error e => rw [hb] at h; cases h
  | ok p =>
    obtain ⟨a2, b2⟩ := p
    rw [hb] at h
    cases h
    exact ⟨_, _, _, rfl⟩

theorem bitAndGeneric_shape {a b r : Expr} (h : bitAndGeneric a b = Except.ok r) :
    ∃ t2 a2 b2, r = Expr.Call t2 "bitwise_and" [a2, b2] := by
  unfold bitAndGeneric at h
  cases hb : BinaryOpMatchTypes a b with
  | error e => rw [hb] at h; cases h
  | ok p =>
    obtain ⟨a2, b2⟩ := p
    rw [hb] at h
    cases h
    exact ⟨_, _, _, rfl⟩

theorem bitOrGeneric_shape {a b r : Expr} (h : bitOrGeneric a b = Except.ok r) :
    ∃ t2 a2 b2, r = Expr.Call t2 "bitwise_or" [a2, b2] := by
  unfold bitOrGeneric at h
  cases hb : BinaryOpMatchTypes a b with
  | error e => rw [hb] at h; cases h
  | ok p =>
    obtain ⟨a2, b2⟩ := p
    rw [hb] at h
    cases h
    exact ⟨_, _, _, rfl⟩

theorem bitXorGeneric_shape {a b r : Expr} (h : bitXorGeneric a b = Except.ok r) :
    ∃ t2 a2 b2, r = Expr.Call t2 "bitwise_xor" [a2, b2] := by
  unfold bitXorGeneric at h
  cases hb : BinaryOpMatchTypes a b with
  | error e => rw [hb] at h; cases h
  | ok p =>
    obtain ⟨a2, b2⟩ := p
    rw [hb] at h
    cases h
    exact ⟨_, _, _, rfl⟩

theorem isLit_SimpleCast_false {rt : Ty} {a : Expr} (hok : litOkB a = true)
    (hint : a.type.code = TypeCode.int)
    (hnot : ∀ (t : Ty) (v : Int), ¬(a = Expr.IntImm t v)) :
    isLit (SimpleCast rt a) = false := by
  cases a
  case IntImm t v => exact absurd rfl (hnot t v)
  case UIntImm t v =>
    simp only [litOkB, Bool.and_eq_true, beq_iff_eq] at hok
    simp only [Expr.type] at hint
    rw [hint] at hok
    simp at hok
  case FloatImm t v =>
    simp only [litOkB, Bool.and_eq_true, beq_iff_eq] at hok
    simp only [Expr.type] at hint
    rw [hint] at hok
    simp at hok
  all_goals
    unfold SimpleCast
    split <;> rfl

@[simp] theorem shr64_zero (v : Int) : shr64 v 0 = v := by
  simp [shr64]

@[simp] theorem shl64_zero (v : Int) : shl64 v 0 = v := by
  simp [shl64]

/-- C9 counterexample: `x >> 0` does not reduce to `x` when the operands are
not index-typed — for a uint32 `x` the operands are promoted and a generic
shift intrinsic call is built instead. -/
theorem claim_C9_cex :
    shr (Expr.Var "x" (mkUInt 32 1)) (Expr.IntImm (mkInt 32 1) 0) =
      Except.ok (Expr.Call (mkInt 32 1) "shift_right"
        [Expr.Cast (mkInt 32 1) (Expr.Var "x" (mkUInt 32 1)), Expr.IntImm (mkInt 32 1) 0])
    ∧ shr (Expr.Var "x" (mkUInt 32 1)) (Expr.IntImm (mkInt 32 1) 0) ≠
      Except.ok (Expr.Var "x" (mkUInt 32 1)) := by
  refine ⟨rfl, ?_⟩
  intro hcontra
  rw [show shr (Expr.Var "x" (mkUInt 32 1)) (Expr.IntImm (mkInt 32 1) 0) =
      Except.ok (Expr.Call (mkInt 32 1) "shift_right"
        [Expr.Cast (mkInt 32 1) (Expr.Var "x" (mkUInt 32 1)),
         Expr.IntImm (mkInt 32 1) 0]) from rfl] at hcontra
  exact Expr.noConfusion (Except.ok.inj hcontra)

/-- C9 (amended): shift-left/right and bitwise and/or/xor fold to a literal
only when both operands are index-typed signed-int literals; `x >> 0` and
`x << 0` reduce to `x` when both operands are index-typed (of `x`'s type);
every successful non-folded result is either the shift-by-zero `SimpleCast`
of the left operand or a named intrinsic call node, never a native op node;
bitwise-not never folds, always building the intrinsic call. -/
theorem claim_C9_amended :
    (∀ a b r : Expr, litOkB a = true →
      (shl a b = Except.ok r ∨ shr a b = Except.ok r ∨ bitAnd a b = Except.ok r ∨
       bitOr a b = Except.ok r ∨ bitXor a b = Except.ok r) →
      isLit r = true →
      IsIndexType a.type = true ∧ IsIndexType b.type = true ∧
      (∃ ta va, a = Expr.IntImm ta va) ∧ (∃ tb vb, b = Expr.IntImm tb vb))
    ∧ (∀ a : Expr, litOkB a = true → IsIndexType a.type = true →
        shr a (Expr.IntImm a.type 0) = Except.ok a
        ∧ shl a (Expr.IntImm a.type 0) = Except.ok a)
    ∧ (∀ a b r : Expr, shr a b = Except.ok r →
        isLit r = true ∨ (∃ t2, r = SimpleCast t2 a) ∨
        ∃ t2 args, r = Expr.Call t2 "shift_right" args)
    ∧ (∀ a b r : Expr, shl a b = Except.ok r →
        isLit r = true ∨ (∃ t2, r = SimpleCast t2 a) ∨
        ∃ t2 args, r = Expr.Call t2 "shift_left" args)
    ∧ (∀ a b r : Expr, bitAnd a b = Except.ok r →
        isLit r = true ∨ ∃ t2 args, r = Expr.Call t2 "bitwise_and" args)
    ∧ (∀ a b r : Expr, bitOr a b = Except.ok r →
        isLit r = true ∨ ∃ t2 args, r = Expr.Call t2 "bitwise_or" args)
    ∧ (∀ a b r : Expr, bitXor a b = Except.ok r →
        isLit r = true ∨ ∃ t2 args, r = Expr.Call t2 "bitwise_xor" args)
    ∧ (∀ a r : Expr, bitNot a = Except.ok r → r = Expr.Call a.type "bitwise_not" [a]) := by
  refine ⟨?_, ?_, ?_, ?_, ?_, ?_, ?_, ?_⟩
  · intro a b r hok hdisj hlit
    rcases hdisj with h | h | h | h | h
    · unfold shl at h
      split at h
      · rename_i hidx
        rw [Bool.and_eq_true] at hidx
        split at h
        · rename_i ta va tb vb
          exact ⟨hidx.1, hidx.2, ⟨ta, va, rfl⟩, ⟨tb, vb, rfl⟩⟩
        · rename_i hneg
          split at h
          · rename_i hb0
            cases h
            obtain ⟨tb, hb⟩ := isIntLitVal_eq hb0
            have hnota : ∀ (t : Ty) (v : Int), ¬(a = Expr.IntImm t v) := by
              intro t v ha
              exact hneg t v tb 0 ha hb
            rw [isLit_SimpleCast_false hok (IsIndexType_code hidx.1) hnota] at hlit
            cases hlit
          · obtain ⟨t2, a2, b2, rfl⟩ := shlGeneric_shape h
            cases hlit
      · obtain ⟨t2, a2, b2, rfl⟩ := shlGeneric_shape h
        cases hlit
    · unfold shr at h
      split at h
      · rename_i hidx
        rw [Bool.and_eq_true] at hidx
        split at h
        · rename_i ta va tb vb
          exact ⟨hidx.1, hidx.2, ⟨ta, va, rfl⟩, ⟨tb, vb, rfl⟩⟩
        · rename_i hneg
          split at h
          · rename_i hb0
            cases h
            obtain ⟨tb, hb⟩ := isIntLitVal_eq hb0
            have hnota : ∀ (t : Ty) (v : Int), ¬(a = Expr.IntImm t v) := by
              intro t v ha
              exact hneg t v tb 0 ha hb
            rw [isLit_SimpleCast_false hok (IsIndexType_code hidx.1) hnota] at hlit
            cases hlit
          · obtain ⟨t2, a2, b2, rfl⟩ := shrGeneric_shape h
            cases hlit
      · obtain ⟨t2, a2, b2, rfl⟩ := shrGeneric_shape h
        cases hlit
    · unfold bitAnd at h
      split at h
      · rename_i hidx
        rw [Bool.and_eq_true] at hidx
        split at h
        · rename_i ta va tb vb
          exact ⟨hidx.1, hidx.2, ⟨ta, va, rfl⟩, ⟨tb, vb, rfl⟩⟩
        · obtain ⟨t2, a2, b2, rfl⟩ := bitAndGeneric_shape h
          cases hlit
      · obtain ⟨t2, a2, b2, rfl⟩ := bitAndGeneric_shape h
        cases hlit
    · unfold bitOr at h
      split at h
      · rename_i hidx
        rw [Bool.and_eq_true] at hidx
        split at h
        · rename_i ta va tb vb
          exact ⟨hidx.1, hidx.2, ⟨ta, va, rfl⟩, ⟨tb, vb, rfl⟩⟩
        · obtain ⟨t2, a2, b2, rfl⟩ := bitOrGeneric_shape h
          cases hlit
      · obtain ⟨t2, a2, b2, rfl⟩ := bitOrGeneric_shape h
        cases hlit
    · unfold bitXor at h
      split at h
      · rename_i hidx
        rw [Bool.and_eq_true] at hidx
        split at h
        · rename_i ta va tb vb
          exact ⟨hidx.1, hidx.2, ⟨ta, va, rfl⟩, ⟨tb, vb, rfl⟩⟩
        · obtain ⟨t2, a2, b2, rfl⟩ := bitXorGeneric_shape h
          cases hlit
      · obtain ⟨t2, a2, b2, rfl⟩ := bitXorGeneric_shape h
        cases hlit
  · intro a hok hidx
    have hidxb : IsIndexType (Expr.IntImm a.type 0).type = true := by simpa using hidx
    constructor
    · cases a
      case IntImm t v =>
        simp only [litOkB, Bool.and_eq_true, beq_iff_eq, decide_eq_true_eq] at hok
        have hidx' : IsIndexType t = true := by simpa using hidx
        have hw : wrap64 v = v := wrap64_eq (by omega) (by omega)
        simp [shr, hidx', rtypeOf, mkIntImm, hw, Expr.type]
      all_goals
        simp only [Expr.type] at hidx
        simp [shr, hidx, rtypeOf, isIntLitVal, SimpleCast, Expr.type]
    · cases a
      case IntImm t v =>
        simp only [litOkB, Bool.and_eq_true, beq_iff_eq, decide_eq_true_eq] at hok
        have hidx' : IsIndexType t = true := by simpa using hidx
        have hw : wrap64 v = v := wrap64_eq (by omega) (by omega)
        simp [shl, hidx', rtypeOf, mkIntImm, hw, Expr.type]
      all_goals
        simp only [Expr.type] at hidx
        simp [shl, hidx, rtypeOf, isIntLitVal, SimpleCast, Expr.type]
  · intro a b r h
    unfold shr at h
    split at h
    · split at h
      · cases h
        exact Or.inl rfl
      · split at h
        · cases h
          exact Or.inr (Or.inl ⟨_, rfl⟩)
        · obtain ⟨t2, a2, b2, rfl⟩ := shrGeneric_shape h
          exact Or.inr (Or.inr ⟨t2, [a2, b2], rfl⟩)
    · obtain ⟨t2, a2, b2, rfl⟩ := shrGeneric_shape h
      exact Or.inr (Or.inr ⟨t2, [a2, b2], rfl⟩)
  · intro a b r h
    unfold shl at h
    split at h
    · split at h
      · cases h
        exact Or.inl rfl
      · split at h
        · cases h
          exact Or.inr (Or.inl ⟨_, rfl⟩)
        · obtain ⟨t2, a2, b2, rfl⟩ := shlGeneric_shape h
          exact Or.inr (Or.inr ⟨t2, [a2, b2], rfl⟩)
    · obtain ⟨t2, a2, b2, rfl⟩ := shlGeneric_shape h
      exact Or.inr (Or.inr ⟨t2, [a2, b2], rfl⟩)
  · intro a b r h
    unfold bitAnd at h
    split at h
    · split at h
      · cases h
        exact Or.inl rfl
      · obtain ⟨t2, a2, b2, rfl⟩ := bitAndGeneric_shape h
        exact Or.inr ⟨t2, [a2, b2], rfl⟩
    · obtain ⟨t2, a2, b2, rfl⟩ := bitAndGeneric_shape h
      exact Or.inr ⟨t2, [a2, b2], rfl⟩
  · intro a b r h
    unfold bitOr at h
    split at h
    · split at h
      · cases h
        exact Or.inl rfl
      · obtain ⟨t2, a2, b2, rfl⟩ := bitOrGeneric_shape h
        exact Or.inr ⟨t2, [a2, b2], rfl⟩
    · obtain ⟨t2, a2, b2, rfl⟩ := bitOrGeneric_shape h
      exact Or.inr ⟨t2, [a2, b2], rfl⟩
  · intro a b r h
    unfold bitXor at h
    split at h
    · split at h
      · cases h
        exact Or.inl rfl
      · obtain ⟨t2, a2, b2, rfl⟩ := bitXorGeneric_shape h
        exact Or.inr ⟨t2, [a2, b2], rfl⟩
    · obtain ⟨t2, a2, b2, rfl⟩ := bitXorGeneric_shape h
      exact Or.inr ⟨t2, [a2, b2], rfl⟩
  · intro a r h
    unfold bitNot at h
    split at h
    · cases h
      rfl
    · cases h

/-- C9 amended-claim witness at concrete inputs: for a symbolic index-typed
(int32) `x`, both `x >> 0` and `x << 0` reduce to `x`. -/
theorem claim_C9_witness :
    shr (Expr.Var "x" (mkInt 32 1)) (Expr.IntImm (mkInt 32 1) 0) =
      Except.ok (Expr.Var "x" (mkInt 32 1))
    ∧ shl (Expr.Var "x" (mkInt 32 1)) (Expr.IntImm (mkInt 32 1) 0) =
      Except.ok (Expr.Var "x" (mkInt 32 1)) := by
  have h := claim_C9_amended.2.1 (Expr.Var "x" (mkInt 32 1)) rfl rfl
  exact ⟨h.1, h.2⟩

end TvmIr
